import Mathlib

/-!
Verification of `sqlite3-restore` (superfly/sqlite3-restore).

The repository contains two variants of the same single-file Go program:
`src/main.go` and a logging variant (`src/unnamed/part_002`).  Both consist of
`run` (the restore orchestrator), `lockAll` (the lock-acquisition phase),
`lock` (the poll-and-retry record-lock driver) and `isWALMode` (mode
detection), plus the lock-byte constants.

This file is a shallow embedding of those functions.  Bytes are `Nat`, file
contents are `List Nat`, the filesystem is a record of the five paths the
program touches, and external lock contention is an oracle giving, for each
lock request in program order, how many non-blocking `F_SETLK` attempts fail
before one succeeds (`none` = the region stays contended forever).  The
context deadline is abstracted to an optional retry budget.  The two variants
differ only in the `Flock_t` request their `lock` builds (the `Start`/`Len`
pair) and in log output; the orchestration text is identical, so it is
embedded once (`lockAllGen`, `runGen`), parameterised by the variant's
request builder.
-/

/-- Database-file lock byte `PENDING` (main.go / part_002 constant). -/
def PENDING : Nat := 0x40000000

/-- Database-file lock byte `RESERVED`. -/
def RESERVED : Nat := 0x40000001

/-- Database-file lock byte `SHARED` (first byte of the 510-byte range). -/
def SHARED : Nat := 0x40000002

/-- SHM-file lock byte `WRITE`. -/
def WRITE : Nat := 120

/-- SHM-file lock byte `CKPT`. -/
def CKPT : Nat := 121

/-- SHM-file lock byte `RECOVER`. -/
def RECOVER : Nat := 122

/-- SHM-file lock byte `READ0`. -/
def READ0 : Nat := 123

/-- SHM-file lock byte `READ1`. -/
def READ1 : Nat := 124

/-- SHM-file lock byte `READ2`. -/
def READ2 : Nat := 125

/-- SHM-file lock byte `READ3`. -/
def READ3 : Nat := 126

/-- SHM-file lock byte `READ4`. -/
def READ4 : Nat := 127

/-- SHM-file lock byte `DMS`. -/
def DMS : Nat := 128

/-- The spec's §4.1 lock-region catalog: (name, start byte, length). -/
def lockRegionTable : List (String × Nat × Nat) :=
  [("PENDING", PENDING, 1), ("RESERVED", RESERVED, 1), ("SHARED", SHARED, 510),
   ("WRITE", WRITE, 1), ("CKPT", CKPT, 1), ("RECOVER", RECOVER, 1),
   ("READ0", READ0, 1), ("READ1", READ1, 1), ("READ2", READ2, 1),
   ("READ3", READ3, 1), ("READ4", READ4, 1), ("DMS", DMS, 1)]

/-- The `(Start, Len)` pair that `lock` in `src/main.go` puts into `Flock_t`:
`start, end := byt, byt; if start == SHARED { end = SHARED + 510 }` and then
`Flock_t{Start: start, Len: end, ...}` — i.e. the `Len` field receives the
value of `end`, which is the byte offset itself for single-byte regions. -/
def mainFlock (byt : Nat) : Nat × Nat :=
  (byt, if byt = SHARED then SHARED + 510 else byt)

/-- The `(Start, Len)` pair that `lock` in `src/unnamed/part_002` puts into
`Flock_t`: `start := byt; flockLen := int64(1); if start == SHARED
{ flockLen = 510 }` and then `Flock_t{Start: start, Len: flockLen, ...}`. -/
def p2Flock (byt : Nat) : Nat × Nat :=
  (byt, if byt = SHARED then 510 else 1)

/-- The three request modes passed to `lock` (`syscall.F_RDLCK`,
`F_WRLCK`, `F_UNLCK`). -/
inductive LockType
  | rdlck
  | wrlck
  | unlck
deriving DecidableEq, Repr

/-- Result of one `lock` call: success after `attempts` syscall attempts,
context-deadline expiry (`ctx.Err()` from the `select`), or an endless wait
(no deadline and the region never becomes free — the loop never returns). -/
inductive LRes
  | ok (attempts : Nat)
  | timedOut
  | hangs
deriving DecidableEq, Repr

/-- Closed form of the poll loop in `lock`.  The loop repeatedly issues a
non-blocking `F_SETLK`; per POSIX an `F_UNLCK` request never conflicts and so
succeeds on the very first attempt, while a read/write request succeeds once
external contention clears.  `fails` is the number of leading failing
attempts for this request (`none` = contended forever); `dl` is the number of
retry waits the context deadline allows before `ctx.Done()` fires (`none` =
no deadline, from a non-positive timeout). -/
def lockO : LockType → Option Nat → Option Nat → LRes
  | .unlck, _, _ => .ok 1
  | _, dl, some f =>
    match dl with
    | none => .ok (f + 1)
    | some d => if f ≤ d then .ok (f + 1) else .timedOut
  | _, some _, none => .timedOut
  | _, none, none => .hangs

/-- Bytes of a file, one `Nat` per byte. -/
abbrev Bytes := List Nat

/-- `isWALMode` from the source: read the first 100 header bytes from the
start of the file (`io.ReadFull`); `EOF`/`ErrUnexpectedEOF` — i.e. the file
is shorter than 100 bytes — yields `false` with no error; a mismatch between
byte 18 (write version) and byte 19 (read version) is an error carrying the
two bytes; otherwise the result is whether byte 18 equals 2. -/
def isWALMode (content : Bytes) : Except (Nat × Nat) Bool :=
  if content.length < 100 then .ok false
  else if content.getD 18 0 ≠ content.getD 19 0 then
    .error (content.getD 18 0, content.getD 19 0)
  else .ok (content.getD 18 0 == 2)

/-- The five filesystem entries the program touches, keyed by role:
destination database `DST`, its `-journal`, `-wal` and `-shm` side-files, and
the source database.  `none` means the path does not exist. -/
structure FS where
  dst : Option Bytes
  dstJournal : Option Bytes
  dstWal : Option Bytes
  dstShm : Option Bytes
  src : Option Bytes
deriving DecidableEq, Repr

/-- The four file handles `run` opens: destination database, shared-index
(`-shm`) file, source database, parent directory. -/
inductive Handle
  | dstDB
  | shm
  | srcDB
  | dir
deriving DecidableEq, Repr

/-- Observable operations of a run, in program order.  A `flock` event is one
`lock` call (all retries of a call repeat the identical `Flock_t`, so one
event per call); the remaining events are the file-level mutations. -/
inductive Ev
  | flock (onShm : Bool) (typ : LockType) (start : Nat) (len : Nat)
  | openShm
  | removeJournal
  | truncWal
  | copyDb
  | truncDst (n : Nat)
  | syncDst
  | invalidateShm
  | syncDir
deriving DecidableEq, Repr

/-- Errors `run` can produce in the model: a lock-acquisition timeout
(wrapped by `lockAll` with the region name, e.g. `"acquire PENDING lock:
context deadline exceeded"`), the header write/read version mismatch from
`isWALMode`, and failure to open the source database. -/
inductive Err
  | lockTimeout (region : String)
  | headerMismatch (w r : Nat)
  | srcOpenFail
deriving DecidableEq, Repr

/-- Program state threaded through the run: the filesystem, the event trace,
and which handles have been opened and closed so far. -/
structure St where
  fs : FS
  evs : List Ev
  opened : List Handle
  closed : List Handle
deriving DecidableEq, Repr

/-- Mark a handle closed (`File.Close`); a second close of the same handle
returns an error that the caller ignores and changes nothing. -/
def closeH (h : Handle) (s : St) : St :=
  if h ∈ s.closed then s else { s with closed := s.closed ++ [h] }

/-- One `lock(ctx, f, typ, byt)` call site inside `lockAll`: which handle it
locks, the request type, the region byte, and the region name used in the
wrapping error message. -/
structure LockSite where
  onShm : Bool
  typ : LockType
  byt : Nat
  region : String
deriving DecidableEq, Repr

/-- The three `lock` calls of the probe phase of `lockAll`: shared `PENDING`,
shared `SHARED`, release `PENDING`. -/
def probeSites : List LockSite :=
  [⟨false, .rdlck, PENDING, "PENDING"⟩,
   ⟨false, .rdlck, SHARED, "SHARED"⟩,
   ⟨false, .unlck, PENDING, "PENDING"⟩]

/-- The three `lock` calls of the rollback-journal upgrade branch of
`lockAll`: exclusive `RESERVED`, `PENDING`, `SHARED`. -/
def rollbackSites : List LockSite :=
  [⟨false, .wrlck, RESERVED, "RESERVED"⟩,
   ⟨false, .wrlck, PENDING, "PENDING"⟩,
   ⟨false, .wrlck, SHARED, "SHARED"⟩]

/-- The nine `lock` calls of the WAL upgrade branch of `lockAll`: shared
`DMS`, then exclusive `WRITE`, `CKPT`, `RECOVER`, `READ0`..`READ4`. -/
def walSites : List LockSite :=
  [⟨true, .rdlck, DMS, "DMS"⟩,
   ⟨true, .wrlck, WRITE, "WRITE"⟩,
   ⟨true, .wrlck, CKPT, "CKPT"⟩,
   ⟨true, .wrlck, RECOVER, "RECOVER"⟩,
   ⟨true, .wrlck, READ0, "READ0"⟩,
   ⟨true, .wrlck, READ1, "READ1"⟩,
   ⟨true, .wrlck, READ2, "READ2"⟩,
   ⟨true, .wrlck, READ3, "READ3"⟩,
   ⟨true, .wrlck, READ4, "READ4"⟩]

/-- The trace event of one `lock` call at a site, for the variant whose
request builder is `fl`. -/
def siteEv (fl : Nat → Nat × Nat) (st : LockSite) : Ev :=
  .flock st.onShm st.typ (fl st.byt).1 (fl st.byt).2

/-- Result of a sequence of `lock` calls: the next oracle index and the
events issued, or the first failure.  The failing call's request was issued
before it failed, so its event is included. -/
inductive SeqOut
  | ok (i : Nat) (evs : List Ev)
  | err (e : Err) (evs : List Ev)
  | hangs (evs : List Ev)
deriving DecidableEq, Repr

/-- Run the `lock` calls of `sites` in order, starting at oracle index `i`.
Each call is `lock(ctx, f, typ, byt)` wrapped as
`fmt.Errorf("acquire <region> lock: %w", err)` on failure. -/
def acquireSeq (fl : Nat → Nat × Nat) (dl : Option Nat) (o : Nat → Option Nat) :
    Nat → List LockSite → SeqOut
  | _, [] => .ok 0 []
  | i, site :: rest =>
    let ev := siteEv fl site
    match lockO site.typ dl (o i) with
    | .ok _ =>
      match acquireSeq fl dl o (i + 1) rest with
      | .ok j evs => .ok j (ev :: evs)
      | .err e evs => .err e (ev :: evs)
      | .hangs evs => .hangs (ev :: evs)
    | .timedOut => .err (.lockTimeout site.region) [ev]
    | .hangs => .hangs [ev]

/-- Result of `lockAll`: the mode flag (`isWAL`, i.e. whether the SHM branch
ran and `*shmFile` was set), or the first failure; the state records the
events and the SHM open. -/
inductive LAOut
  | ok (isWAL : Bool) (s : St)
  | err (e : Err) (s : St)
  | hangs (s : St)
deriving DecidableEq, Repr

/-- `lockAll(ctx, dbFile, &shmFile)`, common to both variants, parameterised
by the variant's `Flock_t` builder `fl`: the probe (`probeSites`), then
`isWALMode` on the destination content, then either the rollback upgrade or
— after opening/creating the `-shm` file and setting `*shmFile` — the WAL
upgrade.  The oracle index starts at 0 and advances one per `lock` call. -/
def lockAllGen (fl : Nat → Nat × Nat) (dl : Option Nat) (o : Nat → Option Nat)
    (s : St) : LAOut :=
  match acquireSeq fl dl o 0 probeSites with
  | .err e evs => .err e { s with evs := s.evs ++ evs }
  | .hangs evs => .hangs { s with evs := s.evs ++ evs }
  | .ok _ evs1 =>
    let s1 := { s with evs := s.evs ++ evs1 }
    match isWALMode ((s1.fs.dst).getD []) with
    | .error p => .err (.headerMismatch p.1 p.2) s1
    | .ok false =>
      match acquireSeq fl dl o 3 rollbackSites with
      | .ok _ evs2 => .ok false { s1 with evs := s1.evs ++ evs2 }
      | .err e evs2 => .err e { s1 with evs := s1.evs ++ evs2 }
      | .hangs evs2 => .hangs { s1 with evs := s1.evs ++ evs2 }
    | .ok true =>
      let s2 : St :=
        { s1 with
          fs := { s1.fs with dstShm := some ((s1.fs.dstShm).getD []) },
          evs := s1.evs ++ [Ev.openShm],
          opened := s1.opened ++ [Handle.shm] }
      match acquireSeq fl dl o 3 walSites with
      | .ok _ evs2 => .ok true { s2 with evs := s2.evs ++ evs2 }
      | .err e evs2 => .err e { s2 with evs := s2.evs ++ evs2 }
      | .hangs evs2 => .hangs { s2 with evs := s2.evs ++ evs2 }

/-- `WriteAt(make([]byte, 136), 0)` on the SHM file: the first 136 bytes
become zero; a shorter file is extended to 136 bytes. -/
def writeAtZeros (b : Bytes) : Bytes := List.replicate 136 0 ++ b.drop 136

/-- Result of a whole run: terminated (successfully or with an error) in a
final state, or stuck forever inside a `lock` poll loop. -/
inductive RunOut
  | ok (s : St)
  | err (e : Err) (s : St)
  | hangs (s : St)
deriving DecidableEq, Repr

/-- The state a run ended in (for `hangs`, the state at the stuck point). -/
def RunOut.stOf : RunOut → St
  | .ok s => s
  | .err _ s => s
  | .hangs s => s

/-- The error of a failed run, if any. -/
def RunOut.errOf : RunOut → Option Err
  | .err e _ => some e
  | _ => none

/-- Whether the run succeeded. -/
def RunOut.isOk : RunOut → Bool
  | .ok _ => true
  | _ => false

/-- The tail of `run()` after a successful `lockAll` (identical in both
variants): remove `DST-journal` (absence tolerated); if WAL, truncate
`DST-wal` (absence tolerated, the file is not created); open the source
(deferring its close), failing if it does not exist; stat it; rewind both
handles; `io.Copy` all source bytes into the destination at offset 0;
truncate the destination to the source size; sync it; if WAL, zero the first
136 bytes of the `-shm` file; open and sync the parent directory (deferring
its close); close the source, destination and `-shm` handles explicitly,
after which the deferred closes re-close them as no-ops. -/
def runAfterLock (isWAL : Bool) (s1 : St) : RunOut :=
  let s2 : St :=
    { s1 with
      fs := { s1.fs with dstJournal := none },
      evs := s1.evs ++ [Ev.removeJournal] }
  let s3 : St :=
    if isWAL then
      { s2 with
        fs := { s2.fs with dstWal := (s2.fs.dstWal).map fun _ => [] },
        evs := s2.evs ++ [Ev.truncWal] }
    else s2
  match s3.fs.src with
  | none =>
    .err .srcOpenFail
      (closeH .dstDB (if isWAL then closeH .shm s3 else s3))
  | some srcB =>
    let s4 : St := { s3 with opened := s3.opened ++ [Handle.srcDB] }
    let dstB := (s4.fs.dst).getD []
    let copied := srcB ++ dstB.drop srcB.length
    let s5 : St :=
      { s4 with
        fs := { s4.fs with dst := some copied },
        evs := s4.evs ++ [Ev.copyDb] }
    let s6 : St :=
      { s5 with
        fs := { s5.fs with dst := some (copied.take srcB.length) },
        evs := s5.evs ++ [Ev.truncDst srcB.length, Ev.syncDst] }
    let s7 : St :=
      if isWAL then
        { s6 with
          fs := { s6.fs with dstShm := some (writeAtZeros ((s6.fs.dstShm).getD [])) },
          evs := s6.evs ++ [Ev.invalidateShm] }
      else s6
    let s8 : St :=
      { s7 with opened := s7.opened ++ [Handle.dir], evs := s7.evs ++ [Ev.syncDir] }
    let s9a := closeH .srcDB s8
    let s9b := closeH .dstDB s9a
    let s9c := if isWAL then closeH .shm s9b else s9b
    .ok (closeH .dir s9c)

/-- `run()`, common to both variants, parameterised by the variant's
`Flock_t` builder `fl`.  Open `DST` read-write creating it if absent
(deferring its close); `lockAll`; if that failed, return — only the deferred
`DST` close runs, so the `-shm` handle `lockAll` may have opened is *not*
closed; otherwise continue with `runAfterLock`. -/
def runGen (fl : Nat → Nat × Nat) (dl : Option Nat) (o : Nat → Option Nat)
    (fs0 : FS) : RunOut :=
  let s0 : St :=
    { fs := { fs0 with dst := some ((fs0.dst).getD []) },
      evs := [], opened := [Handle.dstDB], closed := [] }
  match lockAllGen fl dl o s0 with
  | .hangs s => .hangs s
  | .err e s => .err e (closeH .dstDB s)
  | .ok isWAL s1 => runAfterLock isWAL s1

/-- `run` of `src/main.go` (its `lock` builds `mainFlock` requests). -/
def runMainGo (dl : Option Nat) (o : Nat → Option Nat) (fs0 : FS) : RunOut :=
  runGen mainFlock dl o fs0

/-- `run` of the logging variant `src/unnamed/part_002` (its `lock` builds
`p2Flock` requests). -/
def runPart002 (dl : Option Nat) (o : Nat → Option Nat) (fs0 : FS) : RunOut :=
  runGen p2Flock dl o fs0

/-- Timeout flag handling from `run`: `flag.Duration("timeout",
5*time.Second, ...)` — an absent flag yields the 5-second default
(nanoseconds). -/
def parsedTimeout (arg : Option Int) : Int := arg.getD (5 * 1000000000)

/-- Deadline installation from `run`: a context deadline is set iff the
parsed timeout is strictly positive (`if *timeout > 0`). -/
def lockDeadlineSet (t : Int) : Bool := t > 0

/-- The events a lock-call sequence issued (failure events included). -/
def SeqOut.evsOf : SeqOut → List Ev
  | .ok _ evs => evs
  | .err _ evs => evs
  | .hangs evs => evs

/-- Whether a lock-call sequence completed. -/
def SeqOut.isOkSeq : SeqOut → Bool
  | .ok _ _ => true
  | _ => false

/-- The state `lockAll` ended in. -/
def LAOut.stOf : LAOut → St
  | .ok _ s => s
  | .err _ s => s
  | .hangs s => s

/-- Trace of a completed probe phase, for variant `fl`. -/
def probeEvs (fl : Nat → Nat × Nat) : List Ev := probeSites.map (siteEv fl)

/-- Full `lockAll` trace in rollback mode, for variant `fl`. -/
def rollbackFull (fl : Nat → Nat × Nat) : List Ev :=
  probeEvs fl ++ rollbackSites.map (siteEv fl)

/-- Full `lockAll` trace in WAL mode (the `-shm` open sits between the probe
and the SHM locks), for variant `fl`. -/
def walFull (fl : Nat → Nat × Nat) : List Ev :=
  probeEvs fl ++ Ev.openShm :: walSites.map (siteEv fl)

/-- Is this event an exclusive (write) record-lock request? -/
def isExclEv : Ev → Bool
  | .flock _ .wrlck _ _ => true
  | _ => false

/-- Does this event touch the shared-index (`-shm`) file or the `-wal`
file (open, region lock, truncate, or write)? -/
def isShmOrWalEv : Ev → Bool
  | .flock onShm _ _ _ => onShm
  | .openShm => true
  | .truncWal => true
  | .invalidateShm => true
  | _ => false

/-- Erase the `Len` field of record-lock events (the only field on which the
two variants' requests differ). -/
def Ev.eraseLen : Ev → Ev
  | .flock onShm typ start _ => .flock onShm typ start 0
  | e => e

/-- `Ev.eraseLen` mapped over a state's trace. -/
def St.eraseLen (s : St) : St := { s with evs := s.evs.map Ev.eraseLen }

/-- `Ev.eraseLen` mapped over a sequence result's trace. -/
def SeqOut.eraseLen : SeqOut → SeqOut
  | .ok i evs => .ok i (evs.map Ev.eraseLen)
  | .err e evs => .err e (evs.map Ev.eraseLen)
  | .hangs evs => .hangs (evs.map Ev.eraseLen)

/-- `Ev.eraseLen` mapped over a `lockAll` result's trace. -/
def LAOut.eraseLen : LAOut → LAOut
  | .ok w s => .ok w s.eraseLen
  | .err e s => .err e s.eraseLen
  | .hangs s => .hangs s.eraseLen

/-- `Ev.eraseLen` mapped over a run result's trace. -/
def RunOut.eraseLen : RunOut → RunOut
  | .ok s => .ok s.eraseLen
  | .err e s => .err e s.eraseLen
  | .hangs s => .hangs s.eraseLen

/-- The region names of the database-file locks, as they appear in
`lockAll`'s error wrapping. -/
def dbRegionNames : List String := ["PENDING", "SHARED", "RESERVED"]

/-- The region names of the shared-index-file locks. -/
def shmRegionNames : List String :=
  ["DMS", "WRITE", "CKPT", "RECOVER", "READ0", "READ1", "READ2", "READ3", "READ4"]

/-- A 100-byte destination header whose write-version and read-version bytes
(offsets 18 and 19) are both 2 — a WAL-mode database. -/
def walHdr : Bytes := List.replicate 18 0 ++ [2, 2] ++ List.replicate 80 0

/-- Oracle: every region is free at the first attempt. -/
def oFree : Nat → Option Nat := fun _ => some 0

/-- Oracle: the probe locks succeed immediately, every later request stays
contended forever (e.g. another process holds the `DMS` region). -/
def oShmStuck : Nat → Option Nat := fun i => if 3 ≤ i then none else some 0

/-- Oracle: every region stays contended forever. -/
def oStuck : Nat → Option Nat := fun _ => none

/-- A rollback-mode world: empty destination, no side-files, 3-byte source. -/
def fsRollback : FS := ⟨some [], none, none, none, some [7, 8, 9]⟩

/-- A WAL-mode world whose `-wal` side-file does not exist. -/
def fsWalNoWal : FS := ⟨some walHdr, none, none, none, some [7, 8, 9]⟩

/-- A WAL-mode world with `-wal` and `-shm` side-files present. -/
def fsWalFull : FS := ⟨some walHdr, some [5], some [1, 1, 1], some [9, 9], some [7, 8, 9]⟩

/-- An unlock request succeeds on the very first syscall attempt, whatever
the deadline and whatever the contention state. -/
theorem lockO_unlck_ok (dl f : Option Nat) : lockO .unlck dl f = .ok 1 := by
  cases dl <;> cases f <;> rfl

/-- With no deadline a `lock` call can never report a timeout. -/
theorem lockO_none_no_timeout (t : LockType) (f : Option Nat) :
    lockO t none f ≠ .timedOut := by
  cases t <;> cases f <;> simp [lockO]

/-- A completed lock-call sequence issued exactly one request per site, in
site order. -/
theorem acquireSeq_ok_evs (fl : Nat → Nat × Nat) (dl : Option Nat)
    (o : Nat → Option Nat) :
    ∀ (sites : List LockSite) (i j : Nat) (evs : List Ev),
      acquireSeq fl dl o i sites = .ok j evs → evs = sites.map (siteEv fl) := by
  intro sites
  induction sites with
  | nil =>
    intro i j evs h
    simp [acquireSeq] at h
    simp [h.2]
  | cons site rest ih =>
    intro i j evs h
    simp only [acquireSeq] at h
    cases hl : lockO site.typ dl (o i) with
    | ok a =>
      rw [hl] at h
      cases h2 : acquireSeq fl dl o (i + 1) rest with
      | ok j2 evs2 =>
        rw [h2] at h
        simp at h
        rw [← h.2]
        simp [List.map_cons, ih (i + 1) j2 evs2 h2]
      | err e evs2 => rw [h2] at h; simp at h
      | hangs evs2 => rw [h2] at h; simp at h
    | timedOut => rw [hl] at h; simp at h
    | hangs => rw [hl] at h; simp at h

/-- Whatever happens, the requests a lock-call sequence issued are an initial
segment of the sites, one request per site, in site order (a failing site's
request included). -/
theorem acquireSeq_evs_take (fl : Nat → Nat × Nat) (dl : Option Nat)
    (o : Nat → Option Nat) :
    ∀ (sites : List LockSite) (i : Nat),
      ∃ n, n ≤ sites.length ∧
        (acquireSeq fl dl o i sites).evsOf = (sites.take n).map (siteEv fl) := by
  intro sites
  induction sites with
  | nil => exact fun i => ⟨0, by simp, by simp [acquireSeq, SeqOut.evsOf]⟩
  | cons site rest ih =>
    intro i
    cases hl : lockO site.typ dl (o i) with
    | ok a =>
      obtain ⟨n, hn, hevs⟩ := ih (i + 1)
      refine ⟨n + 1, by simpa using Nat.succ_le_succ hn, ?_⟩
      cases h2 : acquireSeq fl dl o (i + 1) rest with
      | ok j evs2 =>
        rw [h2] at hevs
        simp [SeqOut.evsOf] at hevs
        simp [acquireSeq, hl, h2, SeqOut.evsOf, hevs]
      | err e evs2 =>
        rw [h2] at hevs
        simp [SeqOut.evsOf] at hevs
        simp [acquireSeq, hl, h2, SeqOut.evsOf, hevs]
      | hangs evs2 =>
        rw [h2] at hevs
        simp [SeqOut.evsOf] at hevs
        simp [acquireSeq, hl, h2, SeqOut.evsOf, hevs]
    | timedOut => exact ⟨1, by simp, by simp [acquireSeq, hl, SeqOut.evsOf]⟩
    | hangs => exact ⟨1, by simp, by simp [acquireSeq, hl, SeqOut.evsOf]⟩

/-- A failed lock-call sequence failed with a timeout naming the region of
one of its sites, and that site is an acquisition (never an unlock). -/
theorem acquireSeq_err_region (fl : Nat → Nat × Nat) (dl : Option Nat)
    (o : Nat → Option Nat) :
    ∀ (sites : List LockSite) (i : Nat) (e : Err) (evs : List Ev),
      acquireSeq fl dl o i sites = .err e evs →
        ∃ st, st ∈ sites ∧ st.typ ≠ .unlck ∧ e = .lockTimeout st.region := by
  intro sites
  induction sites with
  | nil => intro i e evs h; simp [acquireSeq] at h
  | cons site rest ih =>
    intro i e evs h
    simp only [acquireSeq] at h
    cases hl : lockO site.typ dl (o i) with
    | ok a =>
      rw [hl] at h
      cases h2 : acquireSeq fl dl o (i + 1) rest with
      | ok j2 evs2 => rw [h2] at h; simp at h
      | err e2 evs2 =>
        rw [h2] at h
        simp at h
        obtain ⟨st, hst, hty, he⟩ := ih (i + 1) e2 evs2 h2
        exact ⟨st, List.mem_cons_of_mem _ hst, hty, h.1 ▸ he⟩
      | hangs evs2 => rw [h2] at h; simp at h
    | timedOut =>
      rw [hl] at h
      simp at h
      refine ⟨site, List.mem_cons_self _ _, ?_, h.1.symm⟩
      intro hty
      rw [hty] at hl
      exact LRes.noConfusion (lockO_unlck_ok dl (o i) ▸ hl)
    | hangs => rw [hl] at h; simp at h

/-- With no deadline a lock-call sequence never fails (it completes or waits
forever). -/
theorem acquireSeq_none_no_err (fl : Nat → Nat × Nat) (o : Nat → Option Nat) :
    ∀ (sites : List LockSite) (i : Nat) (e : Err) (evs : List Ev),
      acquireSeq fl none o i sites ≠ .err e evs := by
  intro sites
  induction sites with
  | nil => intro i e evs h; simp [acquireSeq] at h
  | cons site rest ih =>
    intro i e evs h
    simp only [acquireSeq] at h
    cases hl : lockO site.typ none (o i) with
    | ok a =>
      rw [hl] at h
      cases h2 : acquireSeq fl none o (i + 1) rest with
      | ok j2 evs2 => rw [h2] at h; simp at h
      | err e2 evs2 => exact ih (i + 1) e2 evs2 h2
      | hangs evs2 => rw [h2] at h; simp at h
    | timedOut => exact lockO_none_no_timeout site.typ (o i) hl
    | hangs => rw [hl] at h; simp at h

/-- Two variants whose requests share the `Start` byte produce, site for
site, the same lock-call sequence up to the `Len` field. -/
theorem acquireSeq_eraseLen (fl1 fl2 : Nat → Nat × Nat)
    (hfl : ∀ b, (fl1 b).1 = (fl2 b).1) (dl : Option Nat) (o : Nat → Option Nat) :
    ∀ (sites : List LockSite) (i : Nat),
      (acquireSeq fl1 dl o i sites).eraseLen =
        (acquireSeq fl2 dl o i sites).eraseLen := by
  intro sites
  induction sites with
  | nil => intro i; simp [acquireSeq]
  | cons site rest ih =>
    intro i
    have hev : Ev.eraseLen (siteEv fl1 site) = Ev.eraseLen (siteEv fl2 site) := by
      simp [siteEv, Ev.eraseLen, hfl]
    cases hl : lockO site.typ dl (o i) with
    | ok a =>
      have h := ih (i + 1)
      cases h2a : acquireSeq fl1 dl o (i + 1) rest with
      | ok j evs1 =>
        cases h2b : acquireSeq fl2 dl o (i + 1) rest with
        | ok j2 evs2 =>
          rw [h2a, h2b] at h
          simp [SeqOut.eraseLen] at h
          simp [acquireSeq, hl, h2a, h2b, SeqOut.eraseLen, hev, h.1, h.2]
        | err e2 evs2 => rw [h2a, h2b] at h; simp [SeqOut.eraseLen] at h
        | hangs evs2 => rw [h2a, h2b] at h; simp [SeqOut.eraseLen] at h
      | err e1 evs1 =>
        cases h2b : acquireSeq fl2 dl o (i + 1) rest with
        | ok j2 evs2 => rw [h2a, h2b] at h; simp [SeqOut.eraseLen] at h
        | err e2 evs2 =>
          rw [h2a, h2b] at h
          simp [SeqOut.eraseLen] at h
          simp [acquireSeq, hl, h2a, h2b, SeqOut.eraseLen, hev, h.1, h.2]
        | hangs evs2 => rw [h2a, h2b] at h; simp [SeqOut.eraseLen] at h
      | hangs evs1 =>
        cases h2b : acquireSeq fl2 dl o (i + 1) rest with
        | ok j2 evs2 => rw [h2a, h2b] at h; simp [SeqOut.eraseLen] at h
        | err e2 evs2 => rw [h2a, h2b] at h; simp [SeqOut.eraseLen] at h
        | hangs evs2 =>
          rw [h2a, h2b] at h
          simp [SeqOut.eraseLen] at h
          simp [acquireSeq, hl, h2a, h2b, SeqOut.eraseLen, hev, h]
    | timedOut => simp [acquireSeq, hl, SeqOut.eraseLen, hev]
    | hangs => simp [acquireSeq, hl, SeqOut.eraseLen, hev]

/-- Characterisation of a successful `lockAll`: the mode flag is exactly the
result of `isWALMode` on the destination content, the trace grows by the full
probe-plus-upgrade sequence of the detected mode, nothing is closed, and the
only filesystem/handle change is the `-shm` open in WAL mode. -/
theorem lockAllGen_ok_spec (fl : Nat → Nat × Nat) (dl : Option Nat)
    (o : Nat → Option Nat) (s : St) (w : Bool) (s' : St)
    (h : lockAllGen fl dl o s = .ok w s') :
    isWALMode ((s.fs.dst).getD []) = .ok w
    ∧ s'.evs = s.evs ++ (if w then walFull fl else rollbackFull fl)
    ∧ s'.closed = s.closed
    ∧ s'.opened = (if w then s.opened ++ [Handle.shm] else s.opened)
    ∧ s'.fs = (if w then { s.fs with dstShm := some ((s.fs.dstShm).getD []) } else s.fs) := by
  cases h1 : acquireSeq fl dl o 0 probeSites with
  | err e evs1 => simp [lockAllGen, h1] at h
  | hangs evs1 => simp [lockAllGen, h1] at h
  | ok j evs1 =>
    have hevs1 : evs1 = probeSites.map (siteEv fl) :=
      acquireSeq_ok_evs fl dl o probeSites 0 j evs1 h1
    cases hm : isWALMode ((s.fs.dst).getD []) with
    | error p => simp [lockAllGen, h1, hm] at h
    | ok b =>
      cases b with
      | false =>
        cases h2 : acquireSeq fl dl o 3 rollbackSites with
        | err e evs2 => simp [lockAllGen, h1, hm, h2] at h
        | hangs evs2 => simp [lockAllGen, h1, hm, h2] at h
        | ok j2 evs2 =>
          have hevs2 : evs2 = rollbackSites.map (siteEv fl) :=
            acquireSeq_ok_evs fl dl o rollbackSites 3 j2 evs2 h2
          simp [lockAllGen, h1, hm, h2] at h
          obtain ⟨hw, hs⟩ := h
          subst hw
          subst hs
          simp [hm, hevs1, hevs2, rollbackFull, probeEvs]
      | true =>
        cases h2 : acquireSeq fl dl o 3 walSites with
        | err e evs2 => simp [lockAllGen, h1, hm, h2] at h
        | hangs evs2 => simp [lockAllGen, h1, hm, h2] at h
        | ok j2 evs2 =>
          have hevs2 : evs2 = walSites.map (siteEv fl) :=
            acquireSeq_ok_evs fl dl o walSites 3 j2 evs2 h2
          simp [lockAllGen, h1, hm, h2] at h
          obtain ⟨hw, hs⟩ := h
          subst hw
          subst hs
          simp [hm, hevs1, hevs2, walFull, probeEvs]

/-- Characterisation of a failed `lockAll`: the destination, source, journal
and WAL entries are untouched, nothing is closed, the `-shm` handle is open
only when the failure is a timeout on a shared-index region, the error is a
lock timeout naming one of the acquisition sites (never an unlock site) or
the header mismatch, and with no deadline a lock timeout is impossible. -/
theorem lockAllGen_err_spec (fl : Nat → Nat × Nat) (dl : Option Nat)
    (o : Nat → Option Nat) (s : St) (e : Err) (s' : St)
    (h : lockAllGen fl dl o s = .err e s') :
    s'.fs.dst = s.fs.dst ∧ s'.fs.src = s.fs.src ∧ s'.fs.dstJournal = s.fs.dstJournal
    ∧ s'.fs.dstWal = s.fs.dstWal ∧ s'.closed = s.closed
    ∧ (s'.opened = s.opened
       ∨ (s'.opened = s.opened ++ [Handle.shm]
          ∧ ∃ st, st ∈ walSites ∧ e = Err.lockTimeout st.region))
    ∧ ((∃ st, (st ∈ probeSites ∨ st ∈ rollbackSites ∨ st ∈ walSites)
          ∧ st.typ ≠ .unlck ∧ e = Err.lockTimeout st.region)
       ∨ (∃ wv rv, e = Err.headerMismatch wv rv))
    ∧ (dl = none → ∀ r, e ≠ Err.lockTimeout r) := by
  cases h1 : acquireSeq fl dl o 0 probeSites with
  | hangs evs1 => simp [lockAllGen, h1] at h
  | err e1 evs1 =>
    simp [lockAllGen, h1] at h
    obtain ⟨he, hs⟩ := h
    subst he
    subst hs
    obtain ⟨st, hst, hty, hr⟩ := acquireSeq_err_region fl dl o probeSites 0 e1 evs1 h1
    refine ⟨rfl, rfl, rfl, rfl, rfl, Or.inl rfl, Or.inl ⟨st, Or.inl hst, hty, hr⟩, ?_⟩
    intro hdl r
    subst hdl
    exact absurd h1 (acquireSeq_none_no_err fl o probeSites 0 e1 evs1)
  | ok j evs1 =>
    cases hm : isWALMode ((s.fs.dst).getD []) with
    | error p =>
      simp [lockAllGen, h1, hm] at h
      obtain ⟨he, hs⟩ := h
      subst he
      subst hs
      exact ⟨rfl, rfl, rfl, rfl, rfl, Or.inl rfl, Or.inr ⟨p.1, p.2, rfl⟩,
        fun _ r => by simp⟩
    | ok b =>
      cases b with
      | false =>
        cases h2 : acquireSeq fl dl o 3 rollbackSites with
        | ok j2 evs2 => simp [lockAllGen, h1, hm, h2] at h
        | hangs evs2 => simp [lockAllGen, h1, hm, h2] at h
        | err e2 evs2 =>
          simp [lockAllGen, h1, hm, h2] at h
          obtain ⟨he, hs⟩ := h
          subst he
          subst hs
          obtain ⟨st, hst, hty, hr⟩ :=
            acquireSeq_err_region fl dl o rollbackSites 3 e2 evs2 h2
          refine ⟨rfl, rfl, rfl, rfl, rfl, Or.inl rfl,
            Or.inl ⟨st, Or.inr (Or.inl hst), hty, hr⟩, ?_⟩
          intro hdl r
          subst hdl
          exact absurd h2 (acquireSeq_none_no_err fl o rollbackSites 3 e2 evs2)
      | true =>
        cases h2 : acquireSeq fl dl o 3 walSites with
        | ok j2 evs2 => simp [lockAllGen, h1, hm, h2] at h
        | hangs evs2 => simp [lockAllGen, h1, hm, h2] at h
        | err e2 evs2 =>
          simp [lockAllGen, h1, hm, h2] at h
          obtain ⟨he, hs⟩ := h
          subst he
          subst hs
          obtain ⟨st, hst, hty, hr⟩ :=
            acquireSeq_err_region fl dl o walSites 3 e2 evs2 h2
          refine ⟨rfl, rfl, rfl, rfl, rfl, Or.inr ⟨rfl, st, hst, hr⟩,
            Or.inl ⟨st, Or.inr (Or.inr hst), hty, hr⟩, ?_⟩
          intro hdl r
          subst hdl
          exact absurd h2 (acquireSeq_none_no_err fl o walSites 3 e2 evs2)

/-- Length of the completed probe trace. -/
theorem probeEvs_length (fl : Nat → Nat × Nat) : (probeEvs fl).length = 3 := by
  simp [probeEvs, probeSites]

/-- Whatever `lockAll` does — complete, fail, or wait forever — the requests
it issued so far are an initial segment of the rollback sequence or of the
WAL sequence (probe first, `-shm` open, then upgrade locks, in the source's
order and no other). -/
theorem lockAllGen_trace (fl : Nat → Nat × Nat) (dl : Option Nat)
    (o : Nat → Option Nat) (s : St) :
    ∃ n, (lockAllGen fl dl o s).stOf.evs = s.evs ++ (rollbackFull fl).take n
       ∨ (lockAllGen fl dl o s).stOf.evs = s.evs ++ (walFull fl).take n := by
  cases h1 : acquireSeq fl dl o 0 probeSites with
  | err e1 evs1 =>
    obtain ⟨n, hn, hevs⟩ := acquireSeq_evs_take fl dl o probeSites 0
    rw [h1] at hevs
    simp [SeqOut.evsOf] at hevs
    refine ⟨n, Or.inl ?_⟩
    have hn3 : n ≤ (probeEvs fl).length := by rw [probeEvs_length]; simpa [probeSites] using hn
    have htaken : (rollbackFull fl).take n = (probeEvs fl).take n := by
      rw [rollbackFull]; exact List.take_append_of_le_length hn3
    simp [lockAllGen, h1, LAOut.stOf, hevs, htaken, probeEvs, List.map_take]
  | hangs evs1 =>
    obtain ⟨n, hn, hevs⟩ := acquireSeq_evs_take fl dl o probeSites 0
    rw [h1] at hevs
    simp [SeqOut.evsOf] at hevs
    refine ⟨n, Or.inl ?_⟩
    have hn3 : n ≤ (probeEvs fl).length := by rw [probeEvs_length]; simpa [probeSites] using hn
    have htaken : (rollbackFull fl).take n = (probeEvs fl).take n := by
      rw [rollbackFull]; exact List.take_append_of_le_length hn3
    simp [lockAllGen, h1, LAOut.stOf, hevs, htaken, probeEvs, List.map_take]
  | ok j evs1 =>
    have hevs1 : evs1 = probeSites.map (siteEv fl) :=
      acquireSeq_ok_evs fl dl o probeSites 0 j evs1 h1
    cases hm : isWALMode ((s.fs.dst).getD []) with
    | error p =>
      refine ⟨3, Or.inl ?_⟩
      have htake3 : (rollbackFull fl).take 3 = probeEvs fl := by
        rw [rollbackFull, ← probeEvs_length fl, List.take_left]
      simp [lockAllGen, h1, hm, LAOut.stOf, hevs1, htake3, probeEvs]
    | ok b =>
      cases b with
      | false =>
        cases h2 : acquireSeq fl dl o 3 rollbackSites with
        | ok j2 evs2 =>
          have hevs2 : evs2 = rollbackSites.map (siteEv fl) :=
            acquireSeq_ok_evs fl dl o rollbackSites 3 j2 evs2 h2
          refine ⟨(rollbackFull fl).length, Or.inl ?_⟩
          simp [lockAllGen, h1, hm, h2, LAOut.stOf, hevs1, hevs2, rollbackFull, probeEvs,
            List.take_length]
        | err e2 evs2 =>
          obtain ⟨n, hn, hevs⟩ := acquireSeq_evs_take fl dl o rollbackSites 3
          rw [h2] at hevs
          simp [SeqOut.evsOf] at hevs
          refine ⟨(probeEvs fl).length + n, Or.inl ?_⟩
          rw [rollbackFull, probeEvs, List.take_append]
          simp [lockAllGen, h1, hm, h2, LAOut.stOf, hevs1, hevs, probeEvs, List.map_take]
        | hangs evs2 =>
          obtain ⟨n, hn, hevs⟩ := acquireSeq_evs_take fl dl o rollbackSites 3
          rw [h2] at hevs
          simp [SeqOut.evsOf] at hevs
          refine ⟨(probeEvs fl).length + n, Or.inl ?_⟩
          rw [rollbackFull, probeEvs, List.take_append]
          simp [lockAllGen, h1, hm, h2, LAOut.stOf, hevs1, hevs, probeEvs, List.map_take]
      | true =>
        have hsplit : walFull fl = (probeEvs fl ++ [Ev.openShm]) ++ walSites.map (siteEv fl) := by
          simp [walFull]
        cases h2 : acquireSeq fl dl o 3 walSites with
        | ok j2 evs2 =>
          have hevs2 : evs2 = walSites.map (siteEv fl) :=
            acquireSeq_ok_evs fl dl o walSites 3 j2 evs2 h2
          refine ⟨(walFull fl).length, Or.inr ?_⟩
          simp [lockAllGen, h1, hm, h2, LAOut.stOf, hevs1, hevs2, walFull, probeEvs,
            List.take_length]
        | err e2 evs2 =>
          obtain ⟨n, hn, hevs⟩ := acquireSeq_evs_take fl dl o walSites 3
          rw [h2] at hevs
          simp [SeqOut.evsOf] at hevs
          refine ⟨(probeEvs fl ++ [Ev.openShm]).length + n, Or.inr ?_⟩
          rw [hsplit, List.take_append]
          simp [lockAllGen, h1, hm, h2, LAOut.stOf, hevs1, hevs, probeEvs, List.map_take]
        | hangs evs2 =>
          obtain ⟨n, hn, hevs⟩ := acquireSeq_evs_take fl dl o walSites 3
          rw [h2] at hevs
          simp [SeqOut.evsOf] at hevs
          refine ⟨(probeEvs fl ++ [Ev.openShm]).length + n, Or.inr ?_⟩
          rw [hsplit, List.take_append]
          simp [lockAllGen, h1, hm, h2, LAOut.stOf, hevs1, hevs, probeEvs, List.map_take]

/-- Every probe or rollback lock site targets the database file. -/
theorem probe_rollback_sites_db :
    ∀ st, st ∈ probeSites ++ rollbackSites → st.onShm = false := by
  intro st hst
  fin_cases hst <;> rfl

/-- When the destination header detects rollback mode, `lockAll` never opens
the `-shm` handle, issues no shared-index request, and leaves the filesystem,
the opened handles and the closed handles untouched; if it completes, the
mode flag is `false`. -/
theorem lockAllGen_rollback_frame (fl : Nat → Nat × Nat) (dl : Option Nat)
    (o : Nat → Option Nat) (s : St)
    (hm : isWALMode ((s.fs.dst).getD []) = .ok false) :
    (lockAllGen fl dl o s).stOf.fs = s.fs
    ∧ (lockAllGen fl dl o s).stOf.opened = s.opened
    ∧ (lockAllGen fl dl o s).stOf.closed = s.closed
    ∧ (∀ w s', lockAllGen fl dl o s = .ok w s' → w = false)
    ∧ (∃ evs2, (lockAllGen fl dl o s).stOf.evs = s.evs ++ evs2
        ∧ ∀ ev ∈ evs2, isShmOrWalEv ev = false) := by
  have hsites : ∀ st, st ∈ probeSites ++ rollbackSites →
      isShmOrWalEv (siteEv fl st) = false := by
    intro st hst
    have := probe_rollback_sites_db st hst
    simp [siteEv, isShmOrWalEv, this]
  cases h1 : acquireSeq fl dl o 0 probeSites with
  | err e1 evs1 =>
    obtain ⟨n, hn, hevs⟩ := acquireSeq_evs_take fl dl o probeSites 0
    rw [h1] at hevs
    simp [SeqOut.evsOf] at hevs
    refine ⟨by simp [lockAllGen, h1, LAOut.stOf], by simp [lockAllGen, h1, LAOut.stOf],
      by simp [lockAllGen, h1, LAOut.stOf], by simp [lockAllGen, h1],
      evs1, by simp [lockAllGen, h1, LAOut.stOf], ?_⟩
    intro ev hev
    rw [hevs] at hev
    obtain ⟨st, hst, rfl⟩ := List.mem_map.mp (List.mem_of_mem_take hev)
    exact hsites st (List.mem_append_left _ hst)
  | hangs evs1 =>
    obtain ⟨n, hn, hevs⟩ := acquireSeq_evs_take fl dl o probeSites 0
    rw [h1] at hevs
    simp [SeqOut.evsOf] at hevs
    refine ⟨by simp [lockAllGen, h1, LAOut.stOf], by simp [lockAllGen, h1, LAOut.stOf],
      by simp [lockAllGen, h1, LAOut.stOf], by simp [lockAllGen, h1],
      evs1, by simp [lockAllGen, h1, LAOut.stOf], ?_⟩
    intro ev hev
    rw [hevs] at hev
    obtain ⟨st, hst, rfl⟩ := List.mem_map.mp (List.mem_of_mem_take hev)
    exact hsites st (List.mem_append_left _ hst)
  | ok j evs1 =>
    have hevs1 : evs1 = probeSites.map (siteEv fl) :=
      acquireSeq_ok_evs fl dl o probeSites 0 j evs1 h1
    cases h2 : acquireSeq fl dl o 3 rollbackSites with
    | ok j2 evs2 =>
      have hevs2 : evs2 = rollbackSites.map (siteEv fl) :=
        acquireSeq_ok_evs fl dl o rollbackSites 3 j2 evs2 h2
      refine ⟨by simp [lockAllGen, h1, hm, h2, LAOut.stOf],
        by simp [lockAllGen, h1, hm, h2, LAOut.stOf],
        by simp [lockAllGen, h1, hm, h2, LAOut.stOf],
        by simp [lockAllGen, h1, hm, h2],
        evs1 ++ evs2, by simp [lockAllGen, h1, hm, h2, LAOut.stOf], ?_⟩
      intro ev hev
      rw [hevs1, hevs2, ← List.map_append] at hev
      obtain ⟨st, hst, rfl⟩ := List.mem_map.mp hev
      exact hsites st hst
    | err e2 evs2 =>
      obtain ⟨n, hn, hevs⟩ := acquireSeq_evs_take fl dl o rollbackSites 3
      rw [h2] at hevs
      simp [SeqOut.evsOf] at hevs
      refine ⟨by simp [lockAllGen, h1, hm, h2, LAOut.stOf],
        by simp [lockAllGen, h1, hm, h2, LAOut.stOf],
        by simp [lockAllGen, h1, hm, h2, LAOut.stOf],
        by simp [lockAllGen, h1, hm, h2],
        evs1 ++ evs2, by simp [lockAllGen, h1, hm, h2, LAOut.stOf], ?_⟩
      intro ev hev
      rw [hevs1, hevs] at hev
      rcases List.mem_append.mp hev with hin | hin
      · obtain ⟨st, hst, rfl⟩ := List.mem_map.mp hin
        exact hsites st (List.mem_append_left _ hst)
      · obtain ⟨st, hst, rfl⟩ := List.mem_map.mp (List.mem_of_mem_take hin)
        exact hsites st (List.mem_append_right _ hst)
    | hangs evs2 =>
      obtain ⟨n, hn, hevs⟩ := acquireSeq_evs_take fl dl o rollbackSites 3
      rw [h2] at hevs
      simp [SeqOut.evsOf] at hevs
      refine ⟨by simp [lockAllGen, h1, hm, h2, LAOut.stOf],
        by simp [lockAllGen, h1, hm, h2, LAOut.stOf],
        by simp [lockAllGen, h1, hm, h2, LAOut.stOf],
        by simp [lockAllGen, h1, hm, h2],
        evs1 ++ evs2, by simp [lockAllGen, h1, hm, h2, LAOut.stOf], ?_⟩
      intro ev hev
      rw [hevs1, hevs] at hev
      rcases List.mem_append.mp hev with hin | hin
      · obtain ⟨st, hst, rfl⟩ := List.mem_map.mp hin
        exact hsites st (List.mem_append_left _ hst)
      · obtain ⟨st, hst, rfl⟩ := List.mem_map.mp (List.mem_of_mem_take hin)
        exact hsites st (List.mem_append_right _ hst)

/-- Closing a handle commutes with erasing lock lengths from the trace. -/
theorem closeH_eraseLen (h : Handle) (s : St) :
    (closeH h s).eraseLen = closeH h s.eraseLen := by
  by_cases hc : h ∈ s.closed <;> simp [closeH, St.eraseLen, hc]

/-- Two variants whose requests share the `Start` byte run `lockAll`
identically up to the `Len` field of the issued requests. -/
theorem lockAllGen_eraseLen (fl1 fl2 : Nat → Nat × Nat)
    (hfl : ∀ b, (fl1 b).1 = (fl2 b).1) (dl : Option Nat) (o : Nat → Option Nat)
    (s : St) :
    (lockAllGen fl1 dl o s).eraseLen = (lockAllGen fl2 dl o s).eraseLen := by
  have hp := acquireSeq_eraseLen fl1 fl2 hfl dl o probeSites 0
  cases h1a : acquireSeq fl1 dl o 0 probeSites with
  | err e1 evs1 =>
    cases h1b : acquireSeq fl2 dl o 0 probeSites with
    | ok j2 evs2 => rw [h1a, h1b] at hp; simp [SeqOut.eraseLen] at hp
    | hangs evs2 => rw [h1a, h1b] at hp; simp [SeqOut.eraseLen] at hp
    | err e2 evs2 =>
      rw [h1a, h1b] at hp
      simp [SeqOut.eraseLen] at hp
      simp [lockAllGen, h1a, h1b, LAOut.eraseLen, St.eraseLen, hp.1, hp.2]
  | hangs evs1 =>
    cases h1b : acquireSeq fl2 dl o 0 probeSites with
    | ok j2 evs2 => rw [h1a, h1b] at hp; simp [SeqOut.eraseLen] at hp
    | err e2 evs2 => rw [h1a, h1b] at hp; simp [SeqOut.eraseLen] at hp
    | hangs evs2 =>
      rw [h1a, h1b] at hp
      simp [SeqOut.eraseLen] at hp
      simp [lockAllGen, h1a, h1b, LAOut.eraseLen, St.eraseLen, hp]
  | ok j1 evs1 =>
    cases h1b : acquireSeq fl2 dl o 0 probeSites with
    | err e2 evs2 => rw [h1a, h1b] at hp; simp [SeqOut.eraseLen] at hp
    | hangs evs2 => rw [h1a, h1b] at hp; simp [SeqOut.eraseLen] at hp
    | ok j2 evs2 =>
      rw [h1a, h1b] at hp
      simp [SeqOut.eraseLen] at hp
      cases hm : isWALMode ((s.fs.dst).getD []) with
      | error p =>
        simp [lockAllGen, h1a, h1b, hm, LAOut.eraseLen, St.eraseLen, hp.2]
      | ok b =>
        cases b with
        | false =>
          have hr := acquireSeq_eraseLen fl1 fl2 hfl dl o rollbackSites 3
          cases h2a : acquireSeq fl1 dl o 3 rollbackSites with
          | ok j3 evs3 =>
            cases h2b : acquireSeq fl2 dl o 3 rollbackSites with
            | ok j4 evs4 =>
              rw [h2a, h2b] at hr
              simp [SeqOut.eraseLen] at hr
              simp [lockAllGen, h1a, h1b, hm, h2a, h2b, LAOut.eraseLen, St.eraseLen,
                hp.2, hr.2]
            | err e4 evs4 => rw [h2a, h2b] at hr; simp [SeqOut.eraseLen] at hr
            | hangs evs4 => rw [h2a, h2b] at hr; simp [SeqOut.eraseLen] at hr
          | err e3 evs3 =>
            cases h2b : acquireSeq fl2 dl o 3 rollbackSites with
            | ok j4 evs4 => rw [h2a, h2b] at hr; simp [SeqOut.eraseLen] at hr
            | err e4 evs4 =>
              rw [h2a, h2b] at hr
              simp [SeqOut.eraseLen] at hr
              simp [lockAllGen, h1a, h1b, hm, h2a, h2b, LAOut.eraseLen, St.eraseLen,
                hp.2, hr.1, hr.2]
            | hangs evs4 => rw [h2a, h2b] at hr; simp [SeqOut.eraseLen] at hr
          | hangs evs3 =>
            cases h2b : acquireSeq fl2 dl o 3 rollbackSites with
            | ok j4 evs4 => rw [h2a, h2b] at hr; simp [SeqOut.eraseLen] at hr
            | err e4 evs4 => rw [h2a, h2b] at hr; simp [SeqOut.eraseLen] at hr
            | hangs evs4 =>
              rw [h2a, h2b] at hr
              simp [SeqOut.eraseLen] at hr
              simp [lockAllGen, h1a, h1b, hm, h2a, h2b, LAOut.eraseLen, St.eraseLen,
                hp.2, hr]
        | true =>
          have hr := acquireSeq_eraseLen fl1 fl2 hfl dl o walSites 3
          cases h2a : acquireSeq fl1 dl o 3 walSites with
          | ok j3 evs3 =>
            cases h2b : acquireSeq fl2 dl o 3 walSites with
            | ok j4 evs4 =>
              rw [h2a, h2b] at hr
              simp [SeqOut.eraseLen] at hr
              simp [lockAllGen, h1a, h1b, hm, h2a, h2b, LAOut.eraseLen, St.eraseLen,
                hp.2, hr.2]
            | err e4 evs4 => rw [h2a, h2b] at hr; simp [SeqOut.eraseLen] at hr
            | hangs evs4 => rw [h2a, h2b] at hr; simp [SeqOut.eraseLen] at hr
          | err e3 evs3 =>
            cases h2b : acquireSeq fl2 dl o 3 walSites with
            | ok j4 evs4 => rw [h2a, h2b] at hr; simp [SeqOut.eraseLen] at hr
            | err e4 evs4 =>
              rw [h2a, h2b] at hr
              simp [SeqOut.eraseLen] at hr
              simp [lockAllGen, h1a, h1b, hm, h2a, h2b, LAOut.eraseLen, St.eraseLen,
                hp.2, hr.1, hr.2]
            | hangs evs4 => rw [h2a, h2b] at hr; simp [SeqOut.eraseLen] at hr
          | hangs evs3 =>
            cases h2b : acquireSeq fl2 dl o 3 walSites with
            | ok j4 evs4 => rw [h2a, h2b] at hr; simp [SeqOut.eraseLen] at hr
            | err e4 evs4 => rw [h2a, h2b] at hr; simp [SeqOut.eraseLen] at hr
            | hangs evs4 =>
              rw [h2a, h2b] at hr
              simp [SeqOut.eraseLen] at hr
              simp [lockAllGen, h1a, h1b, hm, h2a, h2b, LAOut.eraseLen, St.eraseLen,
                hp.2, hr]

/-- `closeH` leaves the filesystem untouched. -/
theorem closeH_fs (h : Handle) (s : St) : (closeH h s).fs = s.fs := by
  by_cases hc : h ∈ s.closed <;> simp [closeH, hc]

/-- `closeH` leaves the trace untouched. -/
theorem closeH_evs (h : Handle) (s : St) : (closeH h s).evs = s.evs := by
  by_cases hc : h ∈ s.closed <;> simp [closeH, hc]

/-- `closeH` leaves the opened-handle list untouched. -/
theorem closeH_opened (h : Handle) (s : St) : (closeH h s).opened = s.opened := by
  by_cases hc : h ∈ s.closed <;> simp [closeH, hc]

/-- The closed-handle list after `closeH` depends only on the one before. -/
theorem closeH_closed (h : Handle) (s : St) :
    (closeH h s).closed = if h ∈ s.closed then s.closed else s.closed ++ [h] := by
  by_cases hc : h ∈ s.closed <;> simp [closeH, hc]

/-- The post-lock tail of `run` treats trace-equal-up-to-`Len` states
identically: every later step is length-blind. -/
theorem runAfterLock_eraseLen (w : Bool) (sa sb : St)
    (h : sa.eraseLen = sb.eraseLen) :
    (runAfterLock w sa).eraseLen = (runAfterLock w sb).eraseLen := by
  obtain ⟨fsa, evsa, opa, cla⟩ := sa
  obtain ⟨fsb, evsb, opb, clb⟩ := sb
  simp [St.eraseLen] at h
  obtain ⟨hfs, hevs, hop, hcl⟩ := h
  subst hfs
  subst hop
  subst hcl
  cases w <;> cases hsrc : fsa.src <;>
    simp [runAfterLock, hsrc, RunOut.eraseLen, St.eraseLen, closeH_fs, closeH_evs,
      closeH_opened, closeH_closed, hevs]

/-- Two variants whose requests share the `Start` byte run identically up to
the `Len` field of the issued lock requests: same steps, same filesystem
results, same handles, same errors. -/
theorem runGen_eraseLen (fl1 fl2 : Nat → Nat × Nat)
    (hfl : ∀ b, (fl1 b).1 = (fl2 b).1) (dl : Option Nat) (o : Nat → Option Nat)
    (fs0 : FS) :
    (runGen fl1 dl o fs0).eraseLen = (runGen fl2 dl o fs0).eraseLen := by
  have hLA := lockAllGen_eraseLen fl1 fl2 hfl dl o
    ⟨{ fs0 with dst := some ((fs0.dst).getD []) }, [], [Handle.dstDB], []⟩
  cases hA : lockAllGen fl1 dl o
      ⟨{ fs0 with dst := some ((fs0.dst).getD []) }, [], [Handle.dstDB], []⟩ with
  | ok w1 sa =>
    cases hB : lockAllGen fl2 dl o
        ⟨{ fs0 with dst := some ((fs0.dst).getD []) }, [], [Handle.dstDB], []⟩ with
    | ok w2 sb =>
      rw [hA, hB] at hLA
      simp [LAOut.eraseLen] at hLA
      rw [← hLA.1] at hB
      simp [runGen, hA, hB]
      exact runAfterLock_eraseLen w1 sa sb hLA.2
    | err e2 sb => rw [hA, hB] at hLA; simp [LAOut.eraseLen] at hLA
    | hangs sb => rw [hA, hB] at hLA; simp [LAOut.eraseLen] at hLA
  | err e1 sa =>
    cases hB : lockAllGen fl2 dl o
        ⟨{ fs0 with dst := some ((fs0.dst).getD []) }, [], [Handle.dstDB], []⟩ with
    | ok w2 sb => rw [hA, hB] at hLA; simp [LAOut.eraseLen] at hLA
    | err e2 sb =>
      rw [hA, hB] at hLA
      simp [LAOut.eraseLen] at hLA
      simp [runGen, hA, hB, RunOut.eraseLen, closeH_eraseLen, hLA.1, hLA.2]
    | hangs sb => rw [hA, hB] at hLA; simp [LAOut.eraseLen] at hLA
  | hangs sa =>
    cases hB : lockAllGen fl2 dl o
        ⟨{ fs0 with dst := some ((fs0.dst).getD []) }, [], [Handle.dstDB], []⟩ with
    | ok w2 sb => rw [hA, hB] at hLA; simp [LAOut.eraseLen] at hLA
    | err e2 sb => rw [hA, hB] at hLA; simp [LAOut.eraseLen] at hLA
    | hangs sb =>
      rw [hA, hB] at hLA
      simp [LAOut.eraseLen] at hLA
      simp [runGen, hA, hB, RunOut.eraseLen, hLA]

/-- C4: mode detection returns Rollback (`false`) when the destination is
empty or shorter than the 100-byte header; otherwise, with w and r the
write-version byte (offset 18) and read-version byte (offset 19): if w ≠ r
detection fails with the header-format mismatch, and if w = r it returns
WriteAheadLog (`true`) exactly when the version equals 2. -/
theorem mode_detection_spec (b : Bytes) :
    (b.length < 100 → isWALMode b = .ok false)
    ∧ (100 ≤ b.length → b.getD 18 0 ≠ b.getD 19 0 →
        isWALMode b = .error (b.getD 18 0, b.getD 19 0))
    ∧ (100 ≤ b.length → b.getD 18 0 = b.getD 19 0 →
        isWALMode b = .ok (b.getD 18 0 == 2)) := by
  refine ⟨fun h => by simp [isWALMode, h], fun h hne => ?_, fun h he => ?_⟩
  · have hlt : ¬ b.length < 100 := by omega
    simp only [List.getD_eq_getElem?_getD] at hne
    simp [isWALMode, hlt, hne]
  · have hlt : ¬ b.length < 100 := by omega
    simp only [List.getD_eq_getElem?_getD] at he
    simp [isWALMode, hlt, he]

/-- Witness for C4: the empty file detects Rollback; a 100-byte header with
both version bytes 2 detects WriteAheadLog. -/
theorem mode_detection_spec_witness :
    isWALMode ([] : Bytes) = .ok false ∧ isWALMode walHdr = .ok true := by
  refine ⟨(mode_detection_spec []).1 (by decide), ?_⟩
  have h := (mode_detection_spec walHdr).2.2 (by decide) (by decide)
  have h2 : (walHdr.getD 18 0 == 2) = true := by decide
  rw [h2] at h
  exact h

/-- C2: the part_002 `lock` issues, for every region of the spec's catalog,
exactly the catalog's (start, length) pair; the main.go `lock`, by passing
its `end` variable as `Flock_t.Len`, instead issues `Len` equal to the start
byte for every single-byte region (and `SHARED + 510` for `SHARED`) — not
the catalog lengths 1 and 510. -/
theorem lock_region_request_conformance :
    (∀ e ∈ lockRegionTable, p2Flock e.2.1 = (e.2.1, e.2.2))
    ∧ mainFlock PENDING = (PENDING, PENDING)
    ∧ mainFlock PENDING ≠ (PENDING, 1)
    ∧ mainFlock SHARED = (SHARED, SHARED + 510)
    ∧ mainFlock SHARED ≠ (SHARED, 510)
    ∧ mainFlock WRITE = (WRITE, WRITE)
    ∧ mainFlock WRITE ≠ (WRITE, 1) := by decide

/-- Witness for C2: the catalog lookup applied at the PENDING row. -/
theorem lock_region_request_conformance_witness :
    p2Flock PENDING = (PENDING, 1) :=
  lock_region_request_conformance.1 ("PENDING", PENDING, 1) (by simp [lockRegionTable])

/-- C8: a release ("unlock") request succeeds on its first syscall attempt
(`.ok 1`: one attempt, no poll-and-retry wait) for every deadline and every
contention state — releasing an unheld region included — and consequently
the probe phase can only fail at one of its two acquisition sites, never at
the `PENDING` release (a probe failure has issued at most the first two
requests). -/
theorem release_no_retry :
    (∀ (dl f : Option Nat), lockO .unlck dl f = .ok 1)
    ∧ (∀ (fl : Nat → Nat × Nat) (dl : Option Nat) (o : Nat → Option Nat)
        (i : Nat) (e : Err) (evs : List Ev),
        acquireSeq fl dl o i probeSites = .err e evs → evs.length ≤ 2) := by
  refine ⟨lockO_unlck_ok, ?_⟩
  intro fl dl o i e evs h
  simp only [probeSites] at h
  cases h0 : lockO .rdlck dl (o i) with
  | timedOut =>
    simp only [acquireSeq, h0] at h
    simp at h
    simp [← h.2]
  | hangs => simp only [acquireSeq, h0] at h; simp at h
  | ok a0 =>
    cases h1 : lockO .rdlck dl (o (i + 1)) with
    | timedOut =>
      simp only [acquireSeq, h0, h1] at h
      simp at h
      simp [← h.2]
    | hangs => simp only [acquireSeq, h0, h1] at h; simp at h
    | ok a1 =>
      simp only [acquireSeq, h0, h1, lockO_unlck_ok] at h
      simp at h

/-- Witness for C8: with a zero retry budget and permanent contention the
probe fails at its first site, having issued a single request. -/
theorem release_no_retry_witness :
    lockO .unlck none none = .ok 1
    ∧ [Ev.flock false .rdlck PENDING 1].length ≤ 2 :=
  ⟨release_no_retry.1 none none,
   release_no_retry.2 p2Flock (some 0) oStuck 0 (.lockTimeout "PENDING")
     [Ev.flock false .rdlck PENDING 1] rfl⟩

/-- C1: whatever the prior destination content (larger, smaller, or absent),
if `run` returns success the destination file's bytes equal the source
file's bytes exactly (hence also in length): the copy streams all source
bytes at offset 0, the truncate cuts the destination to the source's size,
and the sync/close tail changes no content. -/
theorem restore_content_equivalence (fl : Nat → Nat × Nat) (dl : Option Nat)
    (o : Nat → Option Nat) (fs0 : FS) (s : St)
    (h : runGen fl dl o fs0 = .ok s) :
    fs0.src ≠ none ∧ s.fs.dst = fs0.src := by
  cases hA : lockAllGen fl dl o
      ⟨{ fs0 with dst := some ((fs0.dst).getD []) }, [], [Handle.dstDB], []⟩ with
  | err e s1 => simp [runGen, hA] at h
  | hangs s1 => simp [runGen, hA] at h
  | ok w s1 =>
    obtain ⟨hm, hevs, hcl, hop, hfs⟩ := lockAllGen_ok_spec _ _ _ _ _ _ hA
    have hsrc1 : s1.fs.src = fs0.src := by cases w <;> simp_all
    have hdst1 : s1.fs.dst = some ((fs0.dst).getD []) := by cases w <;> simp_all
    simp only [runGen] at h
    rw [hA] at h
    cases w with
    | false =>
      cases hsv : s1.fs.src with
      | none => simp [runAfterLock, hsv] at h
      | some b =>
        refine ⟨by rw [← hsrc1, hsv]; simp, ?_⟩
        simp [runAfterLock, hsv] at h
        rw [← h]
        simp [closeH_fs, List.take_left, ← hsrc1, hsv]
    | true =>
      cases hsv : s1.fs.src with
      | none => simp [runAfterLock, hsv] at h
      | some b =>
        refine ⟨by rw [← hsrc1, hsv]; simp, ?_⟩
        simp [runAfterLock, hsv] at h
        rw [← h]
        simp [closeH_fs, List.take_left, ← hsrc1, hsv]

/-- Witness for C1: a successful concrete rollback-mode restore whose
destination ends up byte-identical to the source. -/
theorem restore_content_equivalence_witness :
    fsRollback.src ≠ none
    ∧ (runGen p2Flock none oFree fsRollback).stOf.fs.dst = fsRollback.src := by
  have h : runGen p2Flock none oFree fsRollback
      = .ok ((runGen p2Flock none oFree fsRollback).stOf) := by rfl
  exact restore_content_equivalence p2Flock none oFree fsRollback _ h

/-- In rollback mode the post-lock tail of `run` leaves the `-wal` and
`-shm` entries untouched, opens at most the source and directory handles,
and emits no shared-index or WAL event. -/
theorem runAfterLock_false_frame (s1 : St) :
    (runAfterLock false s1).stOf.fs.dstWal = s1.fs.dstWal
    ∧ (runAfterLock false s1).stOf.fs.dstShm = s1.fs.dstShm
    ∧ (∀ h, h ∈ (runAfterLock false s1).stOf.opened →
        h ∈ s1.opened ∨ h = Handle.srcDB ∨ h = Handle.dir)
    ∧ ∃ Δ, (runAfterLock false s1).stOf.evs = s1.evs ++ Δ
        ∧ ∀ ev ∈ Δ, isShmOrWalEv ev = false := by
  cases hsv : s1.fs.src with
  | none =>
    refine ⟨?_, ?_, ?_, [Ev.removeJournal], ?_, ?_⟩
    · simp [runAfterLock, hsv, RunOut.stOf, closeH_fs]
    · simp [runAfterLock, hsv, RunOut.stOf, closeH_fs]
    · intro h hmem
      simp [runAfterLock, hsv, RunOut.stOf, closeH_opened] at hmem
      exact Or.inl hmem
    · simp [runAfterLock, hsv, RunOut.stOf, closeH_evs]
    · intro ev hev
      fin_cases hev
      rfl
  | some b =>
    refine ⟨?_, ?_, ?_,
      [Ev.removeJournal, Ev.copyDb, Ev.truncDst b.length, Ev.syncDst, Ev.syncDir],
      ?_, ?_⟩
    · simp [runAfterLock, hsv, RunOut.stOf, closeH_fs]
    · simp [runAfterLock, hsv, RunOut.stOf, closeH_fs]
    · intro h hmem
      simp [runAfterLock, hsv, RunOut.stOf, closeH_opened] at hmem
      rcases hmem with hmem | hmem | hmem
      · exact Or.inl hmem
      · exact Or.inr (Or.inl hmem)
      · exact Or.inr (Or.inr hmem)
    · simp [runAfterLock, hsv, RunOut.stOf, closeH_evs]
    · intro ev hev
      fin_cases hev <;> rfl

/-- C10: when the destination header detects Rollback mode, the whole run
never opens the `-shm` file (the handle stays nil), issues no shared-index
region lock, and neither `DST-wal` nor `DST-shm` is created, truncated or
written. -/
theorem rollback_mode_frame (fl : Nat → Nat × Nat) (dl : Option Nat)
    (o : Nat → Option Nat) (fs0 : FS)
    (hm : isWALMode ((fs0.dst).getD []) = .ok false) :
    Handle.shm ∉ (runGen fl dl o fs0).stOf.opened
    ∧ (∀ ev ∈ (runGen fl dl o fs0).stOf.evs, isShmOrWalEv ev = false)
    ∧ (runGen fl dl o fs0).stOf.fs.dstWal = fs0.dstWal
    ∧ (runGen fl dl o fs0).stOf.fs.dstShm = fs0.dstShm := by
  have hm0 : isWALMode
      ((({ fs := { fs0 with dst := some ((fs0.dst).getD []) },
           evs := [], opened := [Handle.dstDB], closed := [] } : St).fs.dst).getD [])
      = .ok false := by simpa using hm
  obtain ⟨hfs, hop, hcl, hok, Δ, hevs, hΔ⟩ :=
    lockAllGen_rollback_frame fl dl o _ hm0
  cases hA : lockAllGen fl dl o
      ⟨{ fs0 with dst := some ((fs0.dst).getD []) }, [], [Handle.dstDB], []⟩ with
  | err e s1 =>
    rw [hA] at hfs hop hcl hevs
    simp [LAOut.stOf] at hfs hop hcl hevs
    simp only [runGen]
    rw [hA]
    simp [RunOut.stOf, closeH_fs, closeH_evs, closeH_opened, hfs, hop, hevs]
    exact hΔ
  | hangs s1 =>
    rw [hA] at hfs hop hcl hevs
    simp [LAOut.stOf] at hfs hop hcl hevs
    simp only [runGen]
    rw [hA]
    simp [RunOut.stOf, hfs, hop, hevs]
    exact hΔ
  | ok w s1 =>
    have hw : w = false := hok w s1 hA
    subst hw
    rw [hA] at hfs hop hcl hevs
    simp [LAOut.stOf] at hfs hop hcl hevs
    obtain ⟨hw1, hw2, hOp, Δ2, hE, hΔ2⟩ := runAfterLock_false_frame s1
    simp only [runGen]
    rw [hA]
    refine ⟨?_, ?_, ?_, ?_⟩
    · intro hmem
      rcases hOp Handle.shm hmem with hin | hin | hin
      · rw [hop] at hin
        simp at hin
      · exact Handle.noConfusion hin
      · exact Handle.noConfusion hin
    · intro ev hev
      rw [hE, hevs] at hev
      rcases List.mem_append.mp hev with hin | hin
      · exact hΔ ev hin
      · exact hΔ2 ev hin
    · rw [hw1, hfs]
    · rw [hw2, hfs]

/-- The first three events of either full sequence are the probe. -/
theorem full_take3 (fl : Nat → Nat × Nat) :
    (rollbackFull fl).take 3 = probeEvs fl ∧ (walFull fl).take 3 = probeEvs fl := by
  constructor
  · rw [rollbackFull, ← probeEvs_length fl, List.take_left]
  · rw [walFull, ← probeEvs_length fl, List.take_left]

/-- No probe event is an exclusive lock request. -/
theorem probeEvs_not_excl (fl : Nat → Nat × Nat) :
    ∀ ev ∈ probeEvs fl, isExclEv ev = false := by
  intro ev hev
  obtain ⟨st, hst, rfl⟩ := List.mem_map.mp hev
  fin_cases hst <;> rfl

/-- C3: the lock-acquisition phase issues, in order: shared `PENDING`,
shared `SHARED`, release `PENDING`, then mode detection, then — only on a
successful detection — the exclusive upgrade of the detected mode (rollback:
exclusive `RESERVED`, `PENDING`, `SHARED`; WAL: the `-shm` open, shared
`DMS`, then exclusive `WRITE`, `CKPT`, `RECOVER`, `READ0`..`READ4`).  Every
trace is an initial segment of one of the two full sequences and of no other
shape; a completed `lockAll` has issued the full sequence of its mode; a
header-mismatch failure has issued exactly the probe, which contains no
exclusive request; and whenever any exclusive request appears, the first
three requests are the completed probe, release included. -/
theorem lock_acquisition_order (fl : Nat → Nat × Nat) (dl : Option Nat)
    (o : Nat → Option Nat) (s : St) (hevs0 : s.evs = []) :
    (∃ n, (lockAllGen fl dl o s).stOf.evs = (rollbackFull fl).take n
        ∨ (lockAllGen fl dl o s).stOf.evs = (walFull fl).take n)
    ∧ (∀ w s', lockAllGen fl dl o s = .ok w s' →
        s'.evs = if w then walFull fl else rollbackFull fl)
    ∧ (∀ wv rv s', lockAllGen fl dl o s = .err (.headerMismatch wv rv) s' →
        s'.evs = probeEvs fl ∧ ∀ ev ∈ s'.evs, isExclEv ev = false)
    ∧ (∀ ev ∈ (lockAllGen fl dl o s).stOf.evs, isExclEv ev = true →
        ((lockAllGen fl dl o s).stOf.evs).take 3 = probeEvs fl) := by
  obtain ⟨n, hn⟩ := lockAllGen_trace fl dl o s
  rw [hevs0] at hn
  simp at hn
  refine ⟨⟨n, hn⟩, ?_, ?_, ?_⟩
  · intro w s' hA
    obtain ⟨_, hevs, _, _, _⟩ := lockAllGen_ok_spec _ _ _ _ _ _ hA
    rw [hevs, hevs0]
    simp
  · intro wv rv s' hA
    cases h1 : acquireSeq fl dl o 0 probeSites with
    | err e1 evs1 =>
      simp [lockAllGen, h1] at hA
      obtain ⟨st, _, _, he⟩ :=
        acquireSeq_err_region fl dl o probeSites 0 e1 evs1 h1
      exact absurd (hA.1.symm.trans he) (by simp)
    | hangs evs1 => simp [lockAllGen, h1] at hA
    | ok j evs1 =>
      have hevs1 : evs1 = probeSites.map (siteEv fl) :=
        acquireSeq_ok_evs fl dl o probeSites 0 j evs1 h1
      cases hm : isWALMode ((s.fs.dst).getD []) with
      | ok b =>
        cases b with
        | false =>
          cases h2 : acquireSeq fl dl o 3 rollbackSites with
          | ok j2 evs2 => simp [lockAllGen, h1, hm, h2] at hA
          | err e2 evs2 =>
            simp [lockAllGen, h1, hm, h2] at hA
            obtain ⟨st, _, _, he⟩ :=
              acquireSeq_err_region fl dl o rollbackSites 3 e2 evs2 h2
            exact absurd (hA.1.symm.trans he) (by simp)
          | hangs evs2 => simp [lockAllGen, h1, hm, h2] at hA
        | true =>
          cases h2 : acquireSeq fl dl o 3 walSites with
          | ok j2 evs2 => simp [lockAllGen, h1, hm, h2] at hA
          | err e2 evs2 =>
            simp [lockAllGen, h1, hm, h2] at hA
            obtain ⟨st, _, _, he⟩ :=
              acquireSeq_err_region fl dl o walSites 3 e2 evs2 h2
            exact absurd (hA.1.symm.trans he) (by simp)
          | hangs evs2 => simp [lockAllGen, h1, hm, h2] at hA
      | error p =>
        simp [lockAllGen, h1, hm] at hA
        rw [← hA.2, hevs0, hevs1]
        exact ⟨by simp [probeEvs], probeEvs_not_excl fl⟩
  · intro ev hev hex
    rcases Nat.lt_or_ge n 3 with hlt | hge
    · exfalso
      rcases hn with hcase | hcase
      · rw [hcase] at hev
        have hsub : (rollbackFull fl).take n = (probeEvs fl).take n := by
          rw [rollbackFull]
          exact List.take_append_of_le_length (by rw [probeEvs_length]; omega)
        rw [hsub] at hev
        have := probeEvs_not_excl fl ev (List.mem_of_mem_take hev)
        rw [hex] at this
        exact Bool.noConfusion this
      · rw [hcase] at hev
        have hsub : (walFull fl).take n = (probeEvs fl).take n := by
          rw [walFull]
          exact List.take_append_of_le_length (by rw [probeEvs_length]; omega)
        rw [hsub] at hev
        have := probeEvs_not_excl fl ev (List.mem_of_mem_take hev)
        rw [hex] at this
        exact Bool.noConfusion this
    · have hmin : min 3 n = 3 := Nat.min_eq_left hge
      rcases hn with hcase | hcase
      · rw [hcase, List.take_take, hmin]
        exact (full_take3 fl).1
      · rw [hcase, List.take_take, hmin]
        exact (full_take3 fl).2

/-- Witness for C3: a concrete rollback-mode `lockAll` issues exactly the
full rollback sequence. -/
theorem lock_acquisition_order_witness :
    (lockAllGen p2Flock none oFree ⟨fsRollback, [], [Handle.dstDB], []⟩).stOf.evs
      = rollbackFull p2Flock := by
  have h := (lock_acquisition_order p2Flock none oFree
      ⟨fsRollback, [], [Handle.dstDB], []⟩ rfl).2.1
  have hA : lockAllGen p2Flock none oFree ⟨fsRollback, [], [Handle.dstDB], []⟩
      = .ok false ((lockAllGen p2Flock none oFree
        ⟨fsRollback, [], [Handle.dstDB], []⟩).stOf) := by rfl
  have h2 := h false _ hA
  simpa using h2

/-- Every WAL lock site's region name is a shared-index region name. -/
theorem walSites_region_names :
    ∀ st ∈ walSites, st.region ∈ shmRegionNames := by
  intro st hst
  fin_cases hst <;> simp [shmRegionNames]

/-- C5 (amended): on every failing run the destination handle is closed
before returning, and so are the source and directory handles whenever they
were opened; the shared-index handle, however, is closed only when `lockAll`
returned it successfully — when the failure is a timeout on a shared-index
region lock, the handle `lockAll` had already opened is left open (released
only by process exit). -/
theorem failing_run_closes_handles (fl : Nat → Nat × Nat) (dl : Option Nat)
    (o : Nat → Option Nat) (fs0 : FS) (e : Err) (s : St)
    (h : runGen fl dl o fs0 = .err e s) :
    Handle.dstDB ∈ s.closed
    ∧ (Handle.srcDB ∈ s.opened → Handle.srcDB ∈ s.closed)
    ∧ (Handle.dir ∈ s.opened → Handle.dir ∈ s.closed)
    ∧ (Handle.shm ∈ s.opened →
        (Handle.shm ∈ s.closed ∨ ∃ r ∈ shmRegionNames, e = Err.lockTimeout r)) := by
  cases hA : lockAllGen fl dl o
      ⟨{ fs0 with dst := some ((fs0.dst).getD []) }, [], [Handle.dstDB], []⟩ with
  | hangs s1 => simp [runGen, hA] at h
  | err e1 s1 =>
    obtain ⟨_, _, _, _, hcl, hopd, _, _⟩ := lockAllGen_err_spec _ _ _ _ _ _ hA
    simp at hcl
    simp only [runGen] at h
    rw [hA] at h
    simp at h
    obtain ⟨he, hs⟩ := h
    subst he
    subst hs
    have hsc : (closeH Handle.dstDB s1).closed = [Handle.dstDB] := by
      simp [closeH, hcl]
    refine ⟨by simp [hsc], ?_, ?_, ?_⟩
    · intro hmem
      rw [closeH_opened] at hmem
      rcases hopd with hop | ⟨hop, _⟩ <;> rw [hop] at hmem <;> simp at hmem
    · intro hmem
      rw [closeH_opened] at hmem
      rcases hopd with hop | ⟨hop, _⟩ <;> rw [hop] at hmem <;> simp at hmem
    · intro hmem
      rw [closeH_opened] at hmem
      rcases hopd with hop | ⟨hop, ⟨st, hst, he⟩⟩
      · rw [hop] at hmem
        simp at hmem
      · exact Or.inr ⟨st.region, walSites_region_names st hst, he⟩
  | ok w s1 =>
    obtain ⟨_, _, hcl, hop, _⟩ := lockAllGen_ok_spec _ _ _ _ _ _ hA
    simp at hcl
    simp only [runGen] at h
    rw [hA] at h
    cases w with
    | false =>
      cases hsv : s1.fs.src with
      | some b => simp [runAfterLock, hsv] at h
      | none =>
        simp [runAfterLock, hsv] at h
        obtain ⟨he, hs⟩ := h
        subst he
        subst hs
        simp at hop
        refine ⟨?_, ?_, ?_, ?_⟩
        · simp [closeH, hcl]
        · intro hmem
          rw [closeH_opened] at hmem
          simp at hmem
          rw [hop] at hmem
          simp at hmem
        · intro hmem
          rw [closeH_opened] at hmem
          simp at hmem
          rw [hop] at hmem
          simp at hmem
        · intro hmem
          rw [closeH_opened] at hmem
          simp at hmem
          rw [hop] at hmem
          simp at hmem
    | true =>
      cases hsv : s1.fs.src with
      | some b => simp [runAfterLock, hsv] at h
      | none =>
        simp [runAfterLock, hsv] at h
        obtain ⟨he, hs⟩ := h
        subst he
        subst hs
        simp at hop
        refine ⟨?_, ?_, ?_, fun _ => Or.inl (by simp [closeH, hcl])⟩
        · simp [closeH, hcl]
        · intro hmem
          rw [closeH_opened, closeH_opened] at hmem
          simp at hmem
          rw [hop] at hmem
          simp at hmem
        · intro hmem
          rw [closeH_opened, closeH_opened] at hmem
          simp at hmem
          rw [hop] at hmem
          simp at hmem

/-- Witness for C5 (amended): a concrete probe-phase timeout still closes
the destination handle. -/
theorem failing_run_closes_handles_witness :
    Handle.dstDB ∈ (runGen p2Flock (some 0) oStuck fsRollback).stOf.closed := by
  have h : runGen p2Flock (some 0) oStuck fsRollback
      = .err (.lockTimeout "PENDING")
        ((runGen p2Flock (some 0) oStuck fsRollback).stOf) := by rfl
  exact (failing_run_closes_handles p2Flock (some 0) oStuck fsRollback _ _ h).1

/-- C5 counterexample: when the `DMS` lock times out, the run fails with the
shared-index handle opened by `lockAll` still unclosed at return — the claim
that every opened handle is closed before returning is false as stated. -/
theorem shm_handle_leak_counterexample :
    (runGen p2Flock (some 0) oShmStuck fsWalNoWal).errOf
        = some (Err.lockTimeout "DMS")
    ∧ Handle.shm ∈ (runGen p2Flock (some 0) oShmStuck fsWalNoWal).stOf.opened
    ∧ Handle.shm ∉ (runGen p2Flock (some 0) oShmStuck fsWalNoWal).stOf.closed := by
  refine ⟨rfl, by decide, by decide⟩

/-- The SHM invalidation zeroes exactly the first 136 bytes. -/
theorem writeAtZeros_take (x : Bytes) :
    (writeAtZeros x).take 136 = List.replicate 136 0 := by
  rw [writeAtZeros]
  nth_rewrite 1 [show (136 : Nat) = (List.replicate 136 (0 : Nat)).length by simp]
  rw [List.take_left]

/-- The SHM file is at least 136 bytes long after invalidation. -/
theorem writeAtZeros_length (x : Bytes) : 136 ≤ (writeAtZeros x).length := by
  simp [writeAtZeros]

/-- C6 (amended): after every successful restore the journal side-file is
gone.  In WAL mode the `-wal` file is empty if it exists — it is truncated
when present but *not created* when absent (absence tolerated, so after a
successful WAL restore with no prior `-wal` file none exists) — and the
`-shm` file exists with its first 136 bytes zero.  In rollback mode the
`-wal` entry is untouched. -/
theorem side_file_cleanup (fl : Nat → Nat × Nat) (dl : Option Nat)
    (o : Nat → Option Nat) (fs0 : FS) (s : St)
    (h : runGen fl dl o fs0 = .ok s) :
    s.fs.dstJournal = none
    ∧ (isWALMode ((fs0.dst).getD []) = .ok true →
        ((s.fs.dstWal = none ∨ s.fs.dstWal = some [])
         ∧ (fs0.dstWal ≠ none → s.fs.dstWal = some [])
         ∧ ∃ b, s.fs.dstShm = some b
             ∧ b.take 136 = List.replicate 136 0 ∧ 136 ≤ b.length))
    ∧ (isWALMode ((fs0.dst).getD []) = .ok false → s.fs.dstWal = fs0.dstWal) := by
  cases hA : lockAllGen fl dl o
      ⟨{ fs0 with dst := some ((fs0.dst).getD []) }, [], [Handle.dstDB], []⟩ with
  | err e s1 => simp [runGen, hA] at h
  | hangs s1 => simp [runGen, hA] at h
  | ok w s1 =>
    obtain ⟨hm, _, _, _, hfs⟩ := lockAllGen_ok_spec _ _ _ _ _ _ hA
    have hm' : isWALMode ((fs0.dst).getD []) = .ok w := by simpa using hm
    simp only [runGen] at h
    rw [hA] at h
    cases w with
    | false =>
      simp at hfs
      cases hsv : s1.fs.src with
      | none => simp [runAfterLock, hsv] at h
      | some b =>
        simp [runAfterLock, hsv] at h
        rw [← h]
        refine ⟨by simp [closeH_fs], ?_, ?_⟩
        · intro hw
          rw [hm'] at hw
          simp at hw
        · intro _
          simp [closeH_fs, hfs]
    | true =>
      simp at hfs
      cases hsv : s1.fs.src with
      | none => simp [runAfterLock, hsv] at h
      | some b =>
        simp [runAfterLock, hsv] at h
        rw [← h]
        refine ⟨by simp [closeH_fs], ?_, ?_⟩
        · intro _
          refine ⟨?_, ?_, writeAtZeros ((s1.fs.dstShm).getD []), ?_, ?_, ?_⟩
          · cases hwal : s1.fs.dstWal <;> simp [closeH_fs, hwal]
          · intro hne
            have : s1.fs.dstWal = fs0.dstWal := by rw [hfs]
            cases hwal : s1.fs.dstWal with
            | none => rw [← this, hwal] at hne; simp at hne
            | some wb => simp [closeH_fs, hwal]
          · simp [closeH_fs]
          · exact writeAtZeros_take _
          · exact writeAtZeros_length _
        · intro hw
          rw [hm'] at hw
          simp at hw

/-- Witness for C6 (amended): a successful WAL-mode restore with the `-wal`
file present leaves the journal absent and the `-wal` file empty. -/
theorem side_file_cleanup_witness :
    (runGen p2Flock none oFree fsWalFull).stOf.fs.dstJournal = none
    ∧ (runGen p2Flock none oFree fsWalFull).stOf.fs.dstWal = some [] := by
  have h : runGen p2Flock none oFree fsWalFull
      = .ok ((runGen p2Flock none oFree fsWalFull).stOf) := by rfl
  have hc := side_file_cleanup p2Flock none oFree fsWalFull _ h
  exact ⟨hc.1, (hc.2.1 (by rfl)).2.1 (by simp [fsWalFull])⟩

/-- C6 counterexample: a successful WAL-mode restore into a destination with
no prior `-wal` file leaves `DST-wal` nonexistent — the claim that it exists
with length 0 after every successful WAL restore is false as stated. -/
theorem wal_absent_counterexample :
    (runGen p2Flock none oFree fsWalNoWal).isOk = true
    ∧ isWALMode ((fsWalNoWal.dst).getD []) = .ok true
    ∧ (runGen p2Flock none oFree fsWalNoWal).stOf.fs.dstWal = none := by
  exact ⟨rfl, rfl, rfl⟩

/-- Every probe or rollback lock site's region name is a database-file
region name. -/
theorem probe_rollback_region_names :
    ∀ st, st ∈ probeSites ++ rollbackSites → st.region ∈ dbRegionNames := by
  intro st hst
  fin_cases hst <;> simp [dbRegionNames]

/-- The post-lock tail of `run` can fail only at the source open. -/
theorem runAfterLock_err_srcOpenFail (w : Bool) (s1 : St) (e : Err) (s : St)
    (h : runAfterLock w s1 = .err e s) : e = .srcOpenFail := by
  cases w <;> cases hsv : s1.fs.src <;> simp [runAfterLock, hsv] at h <;>
    exact h.1.symm

/-- C7 (amended): the timeout flag defaults to 5 seconds, so an *absent*
flag yields a 5-second deadline, not an indefinite wait; only a zero (or
negative) explicit timeout disables the deadline, in which case no lock
acquisition can ever fail with a timeout; and when a lock acquisition does
time out, the error is the distinguishable timeout kind naming the region
that was being waited on. -/
theorem timeout_semantics :
    parsedTimeout none = 5 * 1000000000
    ∧ (∀ t : Int, t ≤ 0 → lockDeadlineSet t = false)
    ∧ lockDeadlineSet (parsedTimeout none) = true
    ∧ (∀ (fl : Nat → Nat × Nat) (o : Nat → Option Nat) (fs0 : FS) (e : Err) (s : St),
        runGen fl none o fs0 = .err e s → ∀ r, e ≠ .lockTimeout r)
    ∧ (∀ (fl : Nat → Nat × Nat) (dl : Option Nat) (o : Nat → Option Nat)
        (fs0 : FS) (s : St) (r : String),
        runGen fl dl o fs0 = .err (.lockTimeout r) s →
          r ∈ dbRegionNames ++ shmRegionNames) := by
  refine ⟨rfl, ?_, rfl, ?_, ?_⟩
  · intro t ht
    simp [lockDeadlineSet]
    omega
  · intro fl o fs0 e s h r
    cases hA : lockAllGen fl none o
        ⟨{ fs0 with dst := some ((fs0.dst).getD []) }, [], [Handle.dstDB], []⟩ with
    | hangs s1 => simp [runGen, hA] at h
    | err e1 s1 =>
      obtain ⟨_, _, _, _, _, _, _, hnone⟩ := lockAllGen_err_spec _ _ _ _ _ _ hA
      simp only [runGen] at h
      rw [hA] at h
      simp at h
      rw [← h.1]
      exact hnone rfl r
    | ok w s1 =>
      simp only [runGen] at h
      rw [hA] at h
      rw [runAfterLock_err_srcOpenFail w s1 e s h]
      simp
  · intro fl dl o fs0 s r h
    cases hA : lockAllGen fl dl o
        ⟨{ fs0 with dst := some ((fs0.dst).getD []) }, [], [Handle.dstDB], []⟩ with
    | hangs s1 => simp [runGen, hA] at h
    | err e1 s1 =>
      obtain ⟨_, _, _, _, _, _, hcls, _⟩ := lockAllGen_err_spec _ _ _ _ _ _ hA
      simp only [runGen] at h
      rw [hA] at h
      simp at h
      rw [h.1] at hcls
      rcases hcls with ⟨st, hst, _, he⟩ | ⟨wv, rv, he⟩
      · have hr : r = st.region := by
          have := he
          simp at this
          exact this
        rw [hr]
        rcases hst with hst | hst | hst
        · exact List.mem_append_left _
            (probe_rollback_region_names st (List.mem_append_left _ hst))
        · exact List.mem_append_left _
            (probe_rollback_region_names st (List.mem_append_right _ hst))
        · exact List.mem_append_right _ (walSites_region_names st hst)
      · exact absurd he (by simp)
    | ok w s1 =>
      simp only [runGen] at h
      rw [hA] at h
      have := runAfterLock_err_srcOpenFail w s1 _ s h
      exact absurd this (by simp)

/-- Witness for C7 (amended): a zero timeout sets no deadline, and a
concrete timed-out run names the `PENDING` region, a known region name. -/
theorem timeout_semantics_witness :
    lockDeadlineSet 0 = false
    ∧ "PENDING" ∈ dbRegionNames ++ shmRegionNames := by
  have h : runGen p2Flock (some 0) oStuck fsRollback
      = .err (.lockTimeout "PENDING")
        ((runGen p2Flock (some 0) oStuck fsRollback).stOf) := by rfl
  exact ⟨timeout_semantics.2.1 0 le_rfl,
    timeout_semantics.2.2.2.2 p2Flock (some 0) oStuck fsRollback _ "PENDING" h⟩

/-- C7 counterexample: an absent timeout flag does not mean "no deadline" —
the 5-second default applies and a deadline is installed, so the claim that
an absent timeout waits indefinitely is false as stated. -/
theorem absent_timeout_counterexample :
    parsedTimeout none = 5 * 1000000000
    ∧ lockDeadlineSet (parsedTimeout none) ≠ false := by
  exact ⟨rfl, by simp [parsedTimeout, lockDeadlineSet]⟩

/-- C9 (amended): for every input the two variants make the same decisions,
produce the same filesystem results, open and close the same handles, return
the same errors, and issue the same lock requests in the same order with the
same start byte and type — but the `Len` field of the requests differs, so
the traces agree only after erasing it. -/
theorem variants_equal_modulo_len (dl : Option Nat) (o : Nat → Option Nat)
    (fs0 : FS) :
    (runMainGo dl o fs0).eraseLen = (runPart002 dl o fs0).eraseLen :=
  runGen_eraseLen mainFlock p2Flock (fun b => by simp [mainFlock, p2Flock]) dl o fs0

/-- C9 counterexample: on a concrete rollback-mode restore the two variants'
event traces differ (the `Len` fields of every lock request disagree), so
the claim that they issue the same (start, length, type) requests is false
as stated. -/
theorem variants_trace_counterexample :
    (runMainGo none oFree fsRollback).stOf.evs
      ≠ (runPart002 none oFree fsRollback).stOf.evs := by decide

/-- Witness for C10: a concrete rollback-mode restore never opens the
shared-index handle and leaves the `-wal` and `-shm` entries untouched. -/
theorem rollback_mode_frame_witness :
    Handle.shm ∉ (runGen p2Flock none oFree fsRollback).stOf.opened
    ∧ (runGen p2Flock none oFree fsRollback).stOf.fs.dstWal = fsRollback.dstWal
    ∧ (runGen p2Flock none oFree fsRollback).stOf.fs.dstShm = fsRollback.dstShm := by
  have h := rollback_mode_frame p2Flock none oFree fsRollback (by rfl)
  exact ⟨h.1, h.2.2.1, h.2.2.2⟩
